import Mathlib

/-!
Verification of the Befixed puzzle/narrative core.

This file gives a shallow embedding in Lean 4 of the parts of the
repository that the checked claims are about:

* `PuzzleController` (src/puzzles/PuzzleController.js): the base puzzle
  state machine — start, submit, complete, fail, the interval timer,
  reset, hint usage and the score formula.
* `PuzzleFactory` (src/puzzles/PuzzleFactory.js): the single
  current-puzzle slot and `startPuzzle`.
* `StateManager` (src/core/StateManager.js): flags, variables,
  inventory and the condition evaluator.
* `RepairSequencePuzzle` (src/puzzles/types/RepairSequencePuzzle.js):
  the multi-round sequence puzzle handlers.
* `ResonancePuzzle` (the resonance puzzle source file): `lockNote`.

JavaScript numbers are modelled as `Int` (millisecond timers, counts)
or `ℚ` (score arithmetic, frequencies); JS `Map`s are modelled as
functions into `Option`; the DOM, audio and rendering calls are pure
UI sinks and have no counterpart in the state.  Asynchronous waits
(`setTimeout`, `await`) are compressed: an operation's embedding is
the net effect of the handler on the modelled state.  Randomness
(`Math.random`) is supplied as an explicit oracle argument.
-/

/-- State of one `PuzzleController` instance
(src/puzzles/PuzzleController.js, constructor).  `maxAttempts = none`
models the JS default `Infinity`; `timeLimit = 0` means no time limit;
`timerRunning` models whether `timerInterval` is set;
`failReason` records the reason string passed to `fail`. -/
structure PuzzleState where
  difficulty : String
  isActive : Bool
  isComplete : Bool
  isFailed : Bool
  attempts : Nat
  maxAttempts : Option Nat
  timeLimit : Int
  timeRemaining : Int
  score : Int
  hints : List String
  hintsUsed : Nat
  maxHints : Nat
  timerRunning : Bool
  failReason : Option String
  deriving Repr, DecidableEq

namespace PuzzleController

/-- Constructor of `PuzzleController` (PuzzleController.js lines 9-48):
initial flags false, `attempts = 0`, `timeRemaining = timeLimit`,
`score = 0`, `hintsUsed = 0`, `maxHints = config.maxHints || hints.length`. -/
def mkPuzzle (difficulty : String) (maxAttempts : Option Nat) (timeLimit : Int)
    (hints : List String) : PuzzleState :=
  { difficulty := difficulty
    isActive := false
    isComplete := false
    isFailed := false
    attempts := 0
    maxAttempts := maxAttempts
    timeLimit := timeLimit
    timeRemaining := timeLimit
    score := 0
    hints := hints
    hintsUsed := 0
    maxHints := hints.length
    timerRunning := false
    failReason := none }

/-- Difficulty lookup `difficultyModifiers[this.difficulty] || 1`
(PuzzleController.js lines 420-426): easy 0.8, normal 1, hard 1.2,
expert 1.5, anything else 1. -/
def difficultyModifier (difficulty : String) : ℚ :=
  if difficulty = "easy" then 4/5
  else if difficulty = "normal" then 1
  else if difficulty = "hard" then 6/5
  else if difficulty = "expert" then 3/2
  else 1

/-- Score formula of `calculateScore` (PuzzleController.js lines 405-429):
base 100, minus 10 per attempt beyond the first, minus 15 per hint,
plus `Math.floor((timeRemaining / timeLimit) * 20)` when a positive time
limit applies and time remains, all multiplied by the difficulty
modifier, then `Math.max(0, Math.floor(...))`. -/
def calculateScore (s : PuzzleState) : PuzzleState :=
  let base0 : ℚ := 100 - ((s.attempts : ℚ) - 1) * 10 - (s.hintsUsed : ℚ) * 15
  let base1 : ℚ :=
    if 0 < s.timeLimit ∧ 0 < s.timeRemaining then
      base0 + ((⌊(s.timeRemaining : ℚ) / (s.timeLimit : ℚ) * 20⌋ : ℤ) : ℚ)
    else base0
  { s with score := max 0 ⌊base1 * difficultyModifier s.difficulty⌋ }

/-- Net state effect of `complete` (PuzzleController.js lines 239-273):
deactivate, mark complete, stop the timer, compute the score.
The emitted PUZZLE_COMPLETE signal and callbacks carry the resulting
fields and are not part of the state. -/
def complete (s : PuzzleState) : PuzzleState :=
  calculateScore { s with isActive := false, isComplete := true, timerRunning := false }

/-- Net state effect of `fail(reason)` (PuzzleController.js lines 279-301):
deactivate, mark failed, stop the timer, record the reason carried by the
PUZZLE_FAIL signal. -/
def fail (reason : String) (s : PuzzleState) : PuzzleState :=
  { s with isActive := false, isFailed := true, timerRunning := false,
           failReason := some reason }

/-- The `timeUp` handler (PuzzleController.js lines 191-194): stop the
timer then fail with reason "Time's up!". -/
def timeUp (s : PuzzleState) : PuzzleState :=
  fail "Time\x27s up!" { s with timerRunning := false }

/-- One firing of the interval installed by `startTimer`
(PuzzleController.js lines 156-169): while the interval is set,
`timeRemaining -= 1000`, and `timeUp` once it is `≤ 0`.  When the
interval has been cleared nothing fires. -/
def tick (s : PuzzleState) : PuzzleState :=
  if s.timerRunning then
    if s.timeRemaining - 1000 ≤ 0 then timeUp { s with timeRemaining := s.timeRemaining - 1000 }
    else { s with timeRemaining := s.timeRemaining - 1000 }
  else s

/-- Net state effect of `start` (PuzzleController.js lines 90-118):
activate, clear terminal flags, reset attempts and hints used, reset the
clock to the configured limit and start the timer iff a positive limit
is configured. -/
def start (s : PuzzleState) : PuzzleState :=
  { s with isActive := true, isComplete := false, isFailed := false,
           attempts := 0, hintsUsed := 0, timeRemaining := s.timeLimit,
           timerRunning := decide (0 < s.timeLimit) }

/-- Whether the incremented attempt count has reached the configured
maximum (`this.attempts >= this.maxAttempts`, with `Infinity` as the
default maximum, PuzzleController.js line 210). -/
def attemptsExhausted (s : PuzzleState) : Bool :=
  match s.maxAttempts with
  | some m => decide (m ≤ s.attempts)
  | none => false

/-- The `submit` handler (PuzzleController.js lines 200-217), with the
variant validator's verdict on the current solution supplied as
`isCorrect`.  Returns the JS boolean result together with the new state;
in the remaining-attempts branch only the attempt count changes (the
negative feedback overlay is a UI sink). -/
def submit (isCorrect : Bool) (s : PuzzleState) : Bool × PuzzleState :=
  let s1 := { s with attempts := s.attempts + 1 }
  if isCorrect then (true, complete s1)
  else if attemptsExhausted s1 then (false, fail "Maximum attempts reached" s1)
  else (false, s1)

/-- The `reset` handler (PuzzleController.js lines 306-323): clear
attempts, restore the clock, clear the terminal flags, and restart the
timer when a positive time limit is configured.  `hintsUsed`, `score`
and `isActive` are not touched. -/
def reset (s : PuzzleState) : PuzzleState :=
  { s with attempts := 0, timeRemaining := s.timeLimit,
           isComplete := false, isFailed := false,
           timerRunning := if 0 < s.timeLimit then true else s.timerRunning }

/-- The `useHint` handler (PuzzleController.js lines 329-351): no-op when
hints are exhausted, otherwise consume one hint and deduct 10 points
from the running score (clamped at 0). -/
def useHint (s : PuzzleState) : PuzzleState :=
  if s.maxHints ≤ s.hintsUsed ∨ s.hints.length ≤ s.hintsUsed then s
  else { s with hintsUsed := s.hintsUsed + 1, score := max 0 (s.score - 10) }

/-- The `destroy` handler (PuzzleController.js lines 461-465): stop the
timer, hide the DOM layer, deactivate. -/
def destroy (s : PuzzleState) : PuzzleState :=
  { s with timerRunning := false, isActive := false }

end PuzzleController

namespace PuzzleFactory

/-- The `startPuzzle` slot policy (PuzzleFactory.js lines 120-154) for a
successfully constructed instance `fresh`: if the current puzzle exists
and is active it is destroyed first; the fresh instance is started and
becomes the current puzzle.  The first component is the new slot, the
second is the final state of the prior occupant. -/
def startPuzzle (cur : Option PuzzleState) (fresh : PuzzleState) :
    Option PuzzleState × Option PuzzleState :=
  let prior :=
    match cur with
    | some p => some (if p.isActive then PuzzleController.destroy p else p)
    | none => none
  (some (PuzzleController.start fresh), prior)

end PuzzleFactory

/-- The game state store (src/core/StateManager.js): flags, variables and
inventory are JS `Map`s, modelled as functions into `Option` (the
`variables` map is named `vars` here because `variables` is not a legal
Lean field name); the `currentChapter` entry of the general state map is
the only general state the claims touch. -/
structure GameState where
  flags : String → Option Bool
  vars : String → Option Int
  inventory : String → Option Int
  currentChapter : Int

/-- Conditions as the evaluator consumes them
(StateManager.js `evaluateCondition`): either a bare flag-name string, or
an object carrying a `type` tag plus the fields the various tags read
(`key`, `operator`, `value`, `conditions`, `condition`).  A field the
JSON omits is passed as a default (`0`, `[]`, `cstr ""`). -/
inductive Cond where
  | cstr (s : String)
  | cobj (ty key op : String) (value : Int) (conditions : List Cond) (condition : Cond)
  deriving Repr

namespace StateManager

/-- The `hasFlag` accessor (StateManager.js lines 173-175):
`flags.has(flag) && flags.get(flag) === true`. -/
def hasFlag (st : GameState) (flag : String) : Bool :=
  match st.flags flag with
  | some true => true
  | _ => false

/-- The `getVariable` accessor (StateManager.js lines 228-230):
the stored value when present, otherwise the caller's default. -/
def getVariable (st : GameState) (name : String) (defaultValue : Int) : Int :=
  (st.vars name).getD defaultValue

/-- The `getItemQuantity` accessor (StateManager.js lines 314-316):
`inventory.get(itemId) || 0`. -/
def getItemQuantity (st : GameState) (itemId : String) : Int :=
  (st.inventory itemId).getD 0

/-- The `hasItem` accessor (StateManager.js lines 305-307):
`(inventory.get(itemId) || 0) >= quantity`. -/
def hasItem (st : GameState) (itemId : String) (quantity : Int) : Bool :=
  decide (quantity ≤ getItemQuantity st itemId)

/-- The `addItem` mutator (StateManager.js lines 259-268):
`inventory.set(itemId, (inventory.get(itemId) || 0) + quantity)`. -/
def addItem (st : GameState) (itemId : String) (quantity : Int) : GameState :=
  let current := getItemQuantity st itemId
  { st with inventory := fun k => if k = itemId then some (current + quantity) else st.inventory k }

/-- The `removeItem` mutator (StateManager.js lines 276-297): fail and
leave the store untouched when the current count is below the requested
quantity; otherwise subtract, deleting the key when the result is `≤ 0`. -/
def removeItem (st : GameState) (itemId : String) (quantity : Int) : Bool × GameState :=
  let current := getItemQuantity st itemId
  if current < quantity then (false, st)
  else
    let newQuantity := current - quantity
    if newQuantity ≤ 0 then
      (true, { st with inventory := fun k => if k = itemId then none else st.inventory k })
    else
      (true, { st with inventory := fun k => if k = itemId then some newQuantity else st.inventory k })

/-- The `compareValues` helper (StateManager.js lines 458-477), on the
integer scalars the embedding uses; the default branch is `a === b`. -/
def compareValues (a : Int) (op : String) (b : Int) : Bool :=
  if op = "==" ∨ op = "===" then decide (a = b)
  else if op = "!=" ∨ op = "!==" then !(decide (a = b))
  else if op = ">" then decide (b < a)
  else if op = ">=" then decide (b ≤ a)
  else if op = "<" then decide (a < b)
  else if op = "<=" then decide (a ≤ b)
  else decide (a = b)

mutual

/-- The `evaluateCondition` dispatcher (StateManager.js lines 406-449):
a bare string is a flag check; an object dispatches on its `type` tag
(`item` reads `value || 1`); every unrecognized tag evaluates to `true`. -/
def evaluateCondition (st : GameState) : Cond → Bool
  | Cond.cstr s => hasFlag st s
  | Cond.cobj ty key op value conds cond =>
    if ty = "flag" then hasFlag st key
    else if ty = "notFlag" then !(hasFlag st key)
    else if ty = "variable" then compareValues (getVariable st key 0) op value
    else if ty = "item" then hasItem st key (if value = 0 then 1 else value)
    else if ty = "chapter" then compareValues st.currentChapter op value
    else if ty = "and" then evalAll st conds
    else if ty = "or" then evalAny st conds
    else if ty = "not" then !(evaluateCondition st cond)
    else true

/-- `condition.conditions.every(c => this.evaluateCondition(c))`. -/
def evalAll (st : GameState) : List Cond → Bool
  | [] => true
  | c :: cs => evaluateCondition st c && evalAll st cs

/-- `condition.conditions.some(c => this.evaluateCondition(c))`. -/
def evalAny (st : GameState) : List Cond → Bool
  | [] => false
  | c :: cs => evaluateCondition st c || evalAny st cs

end

end StateManager

/-- State of a `RepairSequencePuzzle`
(src/puzzles/types/RepairSequencePuzzle.js, constructor): the base
controller state plus the target `sequence` of icons, the action icons
available as buttons, the show/input `phase`, the player's input so far
and the round bookkeeping. -/
structure SeqState extends PuzzleState where
  sequence : List String
  displayTime : Int
  inputTime : Int
  actions : List String
  phase : String
  currentStep : Nat
  playerInput : List String
  round : Nat
  maxRounds : Nat
  deriving Repr, DecidableEq

namespace RepairSequencePuzzle

/-- Constructor of `RepairSequencePuzzle` (RepairSequencePuzzle.js lines
9-36): base constructor, then `timeLimit := inputTime`, `phase "ready"`,
`round 1`.  `maxRounds` defaults to 3 and the action list to the four
tool icons in the source; both are passed explicitly here. -/
def mkRepair (difficulty : String) (maxAttempts : Option Nat)
    (sequence : List String) (actions : List String)
    (displayTime inputTime : Int) (maxRounds : Nat) : SeqState :=
  { toPuzzleState :=
      { PuzzleController.mkPuzzle difficulty maxAttempts 0 [] with timeLimit := inputTime }
    sequence := sequence
    displayTime := displayTime
    inputTime := inputTime
    actions := actions
    phase := "ready"
    currentStep := 0
    playerInput := []
    round := 1
    maxRounds := maxRounds }

/-- Net effect of `showSequence` (RepairSequencePuzzle.js lines 123-150)
up to the point where the input phase begins: the phase becomes
"showing" while the target sequence is replayed on screen. -/
def showSequence (s : SeqState) : SeqState :=
  { s with phase := "showing" }

/-- The `startInputPhase` handler (RepairSequencePuzzle.js lines
155-166): phase "input", input buffer and step cleared, clock reset to
the input time. -/
def startInputPhase (s : SeqState) : SeqState :=
  { s with phase := "input", playerInput := [], currentStep := 0,
           toPuzzleState := { s.toPuzzleState with timeRemaining := s.inputTime } }

/-- The `extendSequence` helper (RepairSequencePuzzle.js lines 295-299):
append the icon of a randomly chosen action; the random index is
supplied as the oracle argument `i`. -/
def extendSequence (i : Nat) (s : SeqState) : SeqState :=
  { s with sequence := s.sequence ++ [s.actions.getD i ""] }

/-- Net effect of `handleWrongInput` (RepairSequencePuzzle.js lines
236-246): phase "checking", then the current round's show cycle is
restarted via `showSequence`.  Round, sequence and the base state are
untouched. -/
def handleWrongInput (s : SeqState) : SeqState :=
  showSequence { s with phase := "checking" }

/-- Net effect of `handleSequenceComplete` (RepairSequencePuzzle.js
lines 267-290) with random oracle `i`: phase "checking"; when rounds
remain, advance the round, extend the sequence by one random step and
replay via `showSequence`; otherwise the base `complete` fires. -/
def handleSequenceComplete (i : Nat) (s : SeqState) : SeqState :=
  let s1 := { s with phase := "checking" }
  if s1.round < s1.maxRounds then
    showSequence (extendSequence i { s1 with round := s1.round + 1 })
  else
    { s1 with toPuzzleState := PuzzleController.complete s1.toPuzzleState }

/-- The `handleInput` handler (RepairSequencePuzzle.js lines 203-231)
with random oracle `i` for a possible round extension: ignore clicks
outside the input phase; push the icon; on a mismatch at the new
position run `handleWrongInput`; on a full correct sequence run
`handleSequenceComplete`. -/
def handleInput (i : Nat) (icon : String) (s : SeqState) : SeqState :=
  if s.phase = "input" then
    let s1 := { s with playerInput := s.playerInput ++ [icon] }
    let stepIndex := s1.playerInput.length - 1
    if stepIndex < s1.sequence.length ∧ s1.sequence.getD stepIndex "" ≠ icon then
      handleWrongInput s1
    else if s1.playerInput.length = s1.sequence.length then
      handleSequenceComplete i s1
    else s1
  else s

/-- The overridden `validateSolution` (RepairSequencePuzzle.js lines
358-361): the solution list is position-wise equal to the target
sequence. -/
def validateSolution (s : SeqState) (solution : List String) : Bool :=
  decide (solution = s.sequence)

end RepairSequencePuzzle

/-- State of a `ResonancePuzzle` (resonance puzzle source, constructor):
the base controller state plus the target note frequencies, the Hz
tolerance, the frequency dial's current value (`dialValues.frequency`,
with `0` also standing for the JS falsy unset value), the index of the
current target note and the indices already matched. -/
structure ResoState extends PuzzleState where
  targetPattern : List ℚ
  tolerance : ℚ
  frequencyDial : ℚ
  currentNote : Nat
  matchedNotes : List Nat
  deriving Repr, DecidableEq

namespace ResonancePuzzle

/-- Constructor of `ResonancePuzzle` (resonance puzzle source, lines
9-40): target pattern and tolerance from the config, every dial
initialised to the midpoint of its range — in particular the frequency
dial to `(freqMin + freqMax) / 2` — with no note matched yet. -/
def mkResonance (difficulty : String) (maxAttempts : Option Nat)
    (targetPattern : List ℚ) (tolerance : ℚ) (freqMin freqMax : ℚ) : ResoState :=
  { toPuzzleState := PuzzleController.mkPuzzle difficulty maxAttempts 0 []
    targetPattern := targetPattern
    tolerance := tolerance
    frequencyDial := (freqMin + freqMax) / 2
    currentNote := 0
    matchedNotes := [] }

/-- The frequency the `lockNote` handler compares against the target:
`this.dialValues.frequency || 440` — the dial value, with the falsy
value `0` (or an unset dial) replaced by 440. -/
def currentFrequency (s : ResoState) : ℚ :=
  if s.frequencyDial = 0 then 440 else s.frequencyDial

/-- The `lockNote` handler (resonance puzzle source, lines 352-378):
no-op once every note is matched; otherwise, when the current frequency
is within tolerance of the current target note, record the match and
advance, completing the puzzle (via the base `complete`, without any
submit) once the last note is matched; when out of tolerance, only a
feedback overlay is shown and the state is unchanged. -/
def lockNote (s : ResoState) : ResoState :=
  if h : s.currentNote < s.targetPattern.length then
    let targetFreq := s.targetPattern.get ⟨s.currentNote, h⟩
    let diff := |targetFreq - currentFrequency s|
    if diff ≤ s.tolerance then
      let s1 := { s with matchedNotes := s.matchedNotes ++ [s.currentNote],
                         currentNote := s.currentNote + 1 }
      if s1.targetPattern.length ≤ s1.currentNote then
        { s1 with toPuzzleState := PuzzleController.complete s1.toPuzzleState }
      else s1
    else s
  else s

/-- The overridden `validateSolution` (resonance puzzle source, lines
397-399): the matched-note list has the length of the target pattern. -/
def validateSolution (s : ResoState) (solution : List Nat) : Bool :=
  decide (solution.length = s.targetPattern.length)

end ResonancePuzzle

/-!
Helper lemmas shared by several claim theorems.
-/

/-- Every difficulty string maps to a positive modifier. -/
theorem difficultyModifier_pos (d : String) : 0 < PuzzleController.difficultyModifier d := by
  unfold PuzzleController.difficultyModifier
  split_ifs <;> norm_num

/-- A stopped interval never fires: `tick` is the identity when
`timerRunning` is false. -/
theorem tick_of_timer_stopped (s : PuzzleState) (h : s.timerRunning = false) :
    PuzzleController.tick s = s := by
  unfold PuzzleController.tick
  rw [h]
  simp

/-- A stopped interval never fires, iterated. -/
theorem iterate_tick_of_timer_stopped (n : Nat) (s : PuzzleState) (h : s.timerRunning = false) :
    (PuzzleController.tick)^[n] s = s := by
  induction n with
  | zero => rfl
  | succ n ih =>
    rw [Function.iterate_succ_apply, tick_of_timer_stopped s h, ih]

/-!
Claim theorems, their witnesses and counterexamples.
-/

/-- Example empty-ish game state used by witnesses: no flags, no
variables, two units of the item "gear". -/
def st0 : GameState :=
  { flags := fun _ => none
    vars := fun _ => none
    inventory := fun k => if k = "gear" then some 2 else none
    currentChapter := 0 }

/-- Claim C10: the base-contract `reset` leaves `hintsUsed` and the
running `score` unchanged and resets only attempts, time-remaining and
the terminal flags, so hint penalties persist across a reset; among the
lifecycle operations only `start` sets `hintsUsed` back to 0 (`submit`,
`complete`, `fail` and the timer tick all preserve it, `useHint` only
ever increments it). -/
theorem reset_preserves_hints_and_score (s : PuzzleState) (c : Bool) (r : String) :
    (PuzzleController.reset s).hintsUsed = s.hintsUsed ∧
    (PuzzleController.reset s).score = s.score ∧
    (PuzzleController.reset s).isActive = s.isActive ∧
    (PuzzleController.reset s).attempts = 0 ∧
    (PuzzleController.reset s).timeRemaining = s.timeLimit ∧
    (PuzzleController.reset s).isComplete = false ∧
    (PuzzleController.reset s).isFailed = false ∧
    (PuzzleController.start s).hintsUsed = 0 ∧
    ((PuzzleController.submit c s).2).hintsUsed = s.hintsUsed ∧
    (PuzzleController.complete s).hintsUsed = s.hintsUsed ∧
    (PuzzleController.fail r s).hintsUsed = s.hintsUsed ∧
    (PuzzleController.tick s).hintsUsed = s.hintsUsed ∧
    ((PuzzleController.useHint s).hintsUsed = s.hintsUsed ∨
      (PuzzleController.useHint s).hintsUsed = s.hintsUsed + 1) := by
  refine ⟨rfl, rfl, rfl, rfl, rfl, rfl, rfl, rfl, ?_, rfl, rfl, ?_, ?_⟩
  · unfold PuzzleController.submit
    cases c
    · rw [if_neg (by simp)]
      split <;> rfl
    · rw [if_pos rfl]
      rfl
  · unfold PuzzleController.tick
    split
    · split <;> rfl
    · rfl
  · unfold PuzzleController.useHint
    split
    · exact Or.inl rfl
    · exact Or.inr rfl

/-- Claim C2: one `submit` call on an active puzzle increments the
attempt count by exactly one, and then: a valid solution transitions the
puzzle to complete; an invalid solution with the incremented count at
the configured maximum transitions it to fail with reason
"Maximum attempts reached"; an invalid solution with attempts remaining
leaves the puzzle active with nothing but the attempt count changed
(only the non-terminal negative feedback overlay is shown). -/
theorem submit_spec (s : PuzzleState) (c : Bool) (hA : s.isActive = true) :
    ((PuzzleController.submit c s).2.attempts = s.attempts + 1) ∧
    (c = true →
      PuzzleController.submit c s
        = (true, PuzzleController.complete { s with attempts := s.attempts + 1 }) ∧
      (PuzzleController.submit c s).2.isComplete = true ∧
      (PuzzleController.submit c s).2.isActive = false) ∧
    (c = false → ∀ m, s.maxAttempts = some m → m ≤ s.attempts + 1 →
      PuzzleController.submit c s
        = (false, PuzzleController.fail "Maximum attempts reached" { s with attempts := s.attempts + 1 }) ∧
      (PuzzleController.submit c s).2.isFailed = true ∧
      (PuzzleController.submit c s).2.failReason = some "Maximum attempts reached" ∧
      (PuzzleController.submit c s).2.isActive = false) ∧
    (c = false → (∀ m, s.maxAttempts = some m → s.attempts + 1 < m) →
      PuzzleController.submit c s = (false, { s with attempts := s.attempts + 1 }) ∧
      (PuzzleController.submit c s).2.isActive = true ∧
      (PuzzleController.submit c s).2.isFailed = s.isFailed ∧
      (PuzzleController.submit c s).2.isComplete = s.isComplete) := by
  refine ⟨?_, ?_, ?_, ?_⟩
  · unfold PuzzleController.submit
    cases c
    · rw [if_neg (by simp)]
      split <;> rfl
    · rw [if_pos rfl]
      rfl
  · rintro rfl
    exact ⟨rfl, rfl, rfl⟩
  · rintro rfl m hm hle
    unfold PuzzleController.submit
    rw [if_neg (by simp)]
    rw [if_pos (by unfold PuzzleController.attemptsExhausted; rw [hm]; simpa using hle)]
    exact ⟨rfl, rfl, rfl, rfl⟩
  · rintro rfl hlt
    unfold PuzzleController.submit
    rw [if_neg (by simp)]
    rw [if_neg (by
      unfold PuzzleController.attemptsExhausted
      cases hmx : s.maxAttempts with
      | none => simp
      | some m => simpa using hlt m hmx)]
    exact ⟨rfl, hA, rfl, rfl⟩

/-- Witness state for Claim C2: a freshly started puzzle with a
two-attempt limit. -/
def sC2 : PuzzleState := PuzzleController.start (PuzzleController.mkPuzzle "normal" (some 2) 0 [])

/-- Witness for Claim C2 at a concrete active puzzle: the first wrong
submit consumes one attempt and leaves the puzzle active, while a
correct submit completes it. -/
theorem submit_spec_witness :
    sC2.isActive = true ∧
    (PuzzleController.submit false sC2).2.attempts = sC2.attempts + 1 ∧
    (PuzzleController.submit false sC2).2.isActive = true ∧
    (PuzzleController.submit true sC2).2.isComplete = true :=
  ⟨rfl,
   (submit_spec sC2 false rfl).1,
   ((submit_spec sC2 false rfl).2.2.2 rfl
     (fun m hm => by
        have hm2 : m = 2 := by
          have : (some 2 : Option Nat) = some m := hm
          simpa using this.symm
        simp [hm2, sC2, PuzzleController.start, PuzzleController.mkPuzzle])).2.1,
   ((submit_spec sC2 true rfl).2.1 rfl).2.1⟩

/-- Claim C4: for every game state, an "and" condition over `[A, B]`
evaluates to the conjunction of the evaluations of A and B, a "not"
condition evaluates to the negation of its sub-condition, and a
flag-check condition on a name absent from the flag store evaluates
to false. -/
theorem evaluateCondition_and_not_absent_flag (st : GameState) (A B c : Cond)
    (k o : String) (v : Int) (cs : List Cond) (name : String)
    (habs : st.flags name = none) :
    StateManager.evaluateCondition st (Cond.cobj "and" k o v [A, B] c)
      = (StateManager.evaluateCondition st A && StateManager.evaluateCondition st B) ∧
    StateManager.evaluateCondition st (Cond.cobj "not" k o v cs A)
      = !(StateManager.evaluateCondition st A) ∧
    StateManager.evaluateCondition st (Cond.cobj "flag" name o v cs c) = false := by
  refine ⟨?_, ?_, ?_⟩
  · simp [StateManager.evaluateCondition, StateManager.evalAll]
  · simp [StateManager.evaluateCondition]
  · simp [StateManager.evaluateCondition, StateManager.hasFlag, habs]

/-- Witness for Claim C4 at the concrete state `st0` and concrete
sub-conditions. -/
theorem evaluateCondition_and_not_absent_flag_witness :
    st0.flags "door_open" = none ∧
    (StateManager.evaluateCondition st0
        (Cond.cobj "and" "" "" 0 [Cond.cstr "a", Cond.cstr "b"] (Cond.cstr ""))
      = (StateManager.evaluateCondition st0 (Cond.cstr "a")
          && StateManager.evaluateCondition st0 (Cond.cstr "b")) ∧
     StateManager.evaluateCondition st0
        (Cond.cobj "not" "" "" 0 [] (Cond.cstr "a"))
      = !(StateManager.evaluateCondition st0 (Cond.cstr "a")) ∧
     StateManager.evaluateCondition st0
        (Cond.cobj "flag" "door_open" "" 0 [] (Cond.cstr "")) = false) :=
  ⟨rfl, evaluateCondition_and_not_absent_flag st0 (Cond.cstr "a") (Cond.cstr "b")
      (Cond.cstr "") "" "" 0 [] "door_open" rfl⟩

/-- Claim C5: a condition object whose type tag is none of the eight
recognized tags evaluates to true, for every game state and whatever
the other fields hold. -/
theorem evaluateCondition_unknown_tag (st : GameState) (ty key op : String) (value : Int)
    (conds : List Cond) (cond : Cond)
    (h : ty ∉ (["flag", "notFlag", "variable", "item", "chapter", "and", "or", "not"] : List String)) :
    StateManager.evaluateCondition st (Cond.cobj ty key op value conds cond) = true := by
  simp only [List.mem_cons, List.not_mem_nil, or_false, not_or] at h
  obtain ⟨h1, h2, h3, h4, h5, h6, h7, h8⟩ := h
  simp [StateManager.evaluateCondition, h1, h2, h3, h4, h5, h6, h7, h8]

/-- Witness for Claim C5: the unrecognized tag "mystery" evaluates to
true at the concrete state `st0`. -/
theorem evaluateCondition_unknown_tag_witness :
    ("mystery" ∉ (["flag", "notFlag", "variable", "item", "chapter", "and", "or", "not"] : List String)) ∧
    StateManager.evaluateCondition st0
      (Cond.cobj "mystery" "k" ">" 3 [] (Cond.cstr "")) = true :=
  ⟨by decide, evaluateCondition_unknown_tag st0 "mystery" "k" ">" 3 [] (Cond.cstr "") (by decide)⟩

/-- Claim C6: `removeItem` returns false and leaves the store untouched
whenever the requested quantity exceeds the current count; and on a
store with non-negative counts, `addItem` followed by `removeItem` of
the same non-negative quantity restores every item's count exactly, and
both operations keep every count non-negative. -/
theorem inventory_remove_add_spec (st : GameState) (id : String) (q : Int) :
    (StateManager.getItemQuantity st id < q →
        StateManager.removeItem st id q = (false, st)) ∧
    ((∀ k, 0 ≤ StateManager.getItemQuantity st k) → 0 ≤ q →
      (∀ k, StateManager.getItemQuantity
              (StateManager.removeItem (StateManager.addItem st id q) id q).2 k
            = StateManager.getItemQuantity st k) ∧
      (∀ k, 0 ≤ StateManager.getItemQuantity (StateManager.addItem st id q) k) ∧
      (∀ k, 0 ≤ StateManager.getItemQuantity (StateManager.removeItem st id q).2 k)) := by
  constructor
  · intro h
    unfold StateManager.removeItem
    rw [if_pos h]
  · intro hw hq
    refine ⟨?_, ?_, ?_⟩
    · intro k
      have hcur : StateManager.getItemQuantity (StateManager.addItem st id q) id
          = StateManager.getItemQuantity st id + q := by
        simp [StateManager.addItem, StateManager.getItemQuantity]
      unfold StateManager.removeItem
      rw [hcur, if_neg (by have := hw id; omega)]
      by_cases hz : StateManager.getItemQuantity st id + q - q ≤ 0
      · rw [if_pos hz]
        by_cases hk : k = id
        · subst hk
          have h0 : (st.inventory k).getD 0 = 0 := by
            have h1 := hw k
            unfold StateManager.getItemQuantity at h1 hz
            omega
          simp [StateManager.getItemQuantity, h0]
        · simp [StateManager.getItemQuantity, StateManager.addItem, hk]
      · rw [if_neg hz]
        by_cases hk : k = id
        · subst hk
          simp [StateManager.getItemQuantity]
        · simp [StateManager.getItemQuantity, StateManager.addItem, hk]
    · intro k
      by_cases hk : k = id
      · subst hk
        have h1 := hw k
        unfold StateManager.getItemQuantity at h1
        simp [StateManager.getItemQuantity, StateManager.addItem]
        omega
      · simpa [StateManager.getItemQuantity, StateManager.addItem, hk] using hw k
    · intro k
      unfold StateManager.removeItem
      by_cases h1 : StateManager.getItemQuantity st id < q
      · rw [if_pos h1]
        exact hw k
      · rw [if_neg h1]
        by_cases hz : StateManager.getItemQuantity st id - q ≤ 0
        · rw [if_pos hz]
          by_cases hk : k = id
          · subst hk
            simp [StateManager.getItemQuantity]
          · simpa [StateManager.getItemQuantity, hk] using hw k
        · rw [if_neg hz]
          by_cases hk : k = id
          · subst hk
            unfold StateManager.getItemQuantity at hz h1
            simp [StateManager.getItemQuantity]
            omega
          · simpa [StateManager.getItemQuantity, hk] using hw k

/-- Witness for Claim C6 at the concrete store `st0` (two units of
"gear"): removing three units fails and leaves the store unchanged, and
adding then removing five units restores the count. -/
theorem inventory_remove_add_spec_witness :
    StateManager.getItemQuantity st0 "gear" < 3 ∧
    StateManager.removeItem st0 "gear" 3 = (false, st0) ∧
    StateManager.getItemQuantity
        (StateManager.removeItem (StateManager.addItem st0 "gear" 5) "gear" 5).2 "gear"
      = StateManager.getItemQuantity st0 "gear" ∧
    0 ≤ StateManager.getItemQuantity (StateManager.addItem st0 "gear" 5) "gear" :=
  have hw : ∀ k, 0 ≤ StateManager.getItemQuantity st0 k := fun k => by
    unfold StateManager.getItemQuantity st0
    by_cases hk : k = "gear" <;> simp [hk]
  ⟨by decide,
   (inventory_remove_add_spec st0 "gear" 3).1 (by decide),
   ((inventory_remove_add_spec st0 "gear" 5).2 hw (by decide)).1 "gear",
   ((inventory_remove_add_spec st0 "gear" 5).2 hw (by decide)).2.1 "gear"⟩

/-- Claim C9: an active puzzle with its interval timer running and
positive time remaining transitions to failed with reason "Time's up!"
— its attempt count untouched — once enough one-second interval firings
have elapsed to cover the remaining time; in particular a
`timeLimit = 5000` puzzle fails after the five firings that 5001ms of
wall clock deliver. -/
theorem timer_expiry_fails (s : PuzzleState) (n : Nat)
    (hA : s.isActive = true) (hT : s.timerRunning = true)
    (h0 : 0 < s.timeRemaining) (hn : s.timeRemaining ≤ 1000 * n) :
    ((PuzzleController.tick)^[n] s).isFailed = true ∧
    ((PuzzleController.tick)^[n] s).failReason = some "Time\x27s up!" ∧
    ((PuzzleController.tick)^[n] s).attempts = s.attempts := by
  induction n generalizing s with
  | zero => omega
  | succ n ih =>
    rw [Function.iterate_succ_apply]
    by_cases hle : s.timeRemaining - 1000 ≤ 0
    · have htick : PuzzleController.tick s
          = PuzzleController.timeUp { s with timeRemaining := s.timeRemaining - 1000 } := by
        unfold PuzzleController.tick
        rw [hT, if_pos rfl, if_pos hle]
      rw [htick, iterate_tick_of_timer_stopped n _ rfl]
      exact ⟨rfl, rfl, rfl⟩
    · have htick : PuzzleController.tick s
          = { s with timeRemaining := s.timeRemaining - 1000 } := by
        unfold PuzzleController.tick
        rw [hT, if_pos rfl, if_neg hle]
      rw [htick]
      exact ih _ hA hT (by show 0 < s.timeRemaining - 1000; omega)
        (by show s.timeRemaining - 1000 ≤ 1000 * (n : Int); push_cast at hn ⊢; omega)

/-- Witness state for Claim C9: a started puzzle with a 5000ms time
limit (end-to-end scenario C). -/
def sC9 : PuzzleState := PuzzleController.start (PuzzleController.mkPuzzle "normal" none 5000 [])

/-- Witness for Claim C9: after the five interval firings delivered by
5001ms of wall clock, the concrete started 5000ms puzzle is failed with
reason "Time's up!" and its attempt count is untouched. -/
theorem timer_expiry_fails_witness :
    ((PuzzleController.tick)^[5] sC9).isFailed = true ∧
    ((PuzzleController.tick)^[5] sC9).failReason = some "Time\x27s up!" ∧
    ((PuzzleController.tick)^[5] sC9).attempts = sC9.attempts :=
  timer_expiry_fails sC9 5 rfl rfl (by decide) (by decide)

/-- A prior puzzle instance that is non-terminal but inactive, with its
interval timer running: a started 5000ms puzzle that failed and was then
reset (`reset` clears the terminal flags and restarts the timer but
never reactivates, PuzzleController.js lines 306-323). -/
def abandonedPrior : PuzzleState :=
  PuzzleController.reset
    (PuzzleController.fail "Maximum attempts reached"
      (PuzzleController.start (PuzzleController.mkPuzzle "normal" (some 1) 5000 [])))

/-- Counterexample to Claim C3 as stated: `startPuzzle` only destroys a
prior instance whose `isActive` flag is set.  The concrete prior
instance `abandonedPrior` has not reached a terminal state
(`isComplete` and `isFailed` are both false), yet `startPuzzle` leaves
it completely untouched — in particular its restarted interval timer
keeps running, and five subsequent firings make it emit a terminal
failure signal with reason "Time's up!". -/
theorem startPuzzle_nonterminal_counterexample :
    abandonedPrior.isComplete = false ∧
    abandonedPrior.isFailed = false ∧
    abandonedPrior.isActive = false ∧
    abandonedPrior.timerRunning = true ∧
    (PuzzleFactory.startPuzzle (some abandonedPrior)
        (PuzzleController.mkPuzzle "normal" none 0 [])).2 = some abandonedPrior ∧
    ((PuzzleController.tick)^[5] abandonedPrior).isFailed = true ∧
    ((PuzzleController.tick)^[5] abandonedPrior).failReason = some "Time\x27s up!" :=
  ⟨rfl, rfl, rfl, rfl, rfl, rfl, rfl⟩

/-- Claim C3 (amended): whenever `startPuzzle` is called while the prior
instance in the factory slot is active, the prior instance is destroyed
— deactivated with its interval timer stopped, so no subsequent
timer-driven signal of its can ever fire — and afterwards exactly the
started new instance occupies the current-puzzle slot. -/
theorem startPuzzle_active_prior_destroyed (cur fresh : PuzzleState)
    (hA : cur.isActive = true) :
    (PuzzleFactory.startPuzzle (some cur) fresh).2
      = some (PuzzleController.destroy cur) ∧
    (PuzzleController.destroy cur).isActive = false ∧
    (PuzzleController.destroy cur).timerRunning = false ∧
    (∀ n, (PuzzleController.tick)^[n] (PuzzleController.destroy cur)
        = PuzzleController.destroy cur) ∧
    (PuzzleFactory.startPuzzle (some cur) fresh).1
      = some (PuzzleController.start fresh) ∧
    (PuzzleController.start fresh).isActive = true := by
  refine ⟨?_, rfl, rfl, ?_, rfl, rfl⟩
  · simp only [PuzzleFactory.startPuzzle, hA, if_true]
  · intro n
    exact iterate_tick_of_timer_stopped n _ rfl

/-- Witness for Claim C3 (amended) at a concrete active prior: the
running 5000ms puzzle `sC9` is destroyed when a fresh puzzle is
started over it. -/
theorem startPuzzle_active_prior_destroyed_witness :
    sC9.isActive = true ∧
    (PuzzleFactory.startPuzzle (some sC9)
        (PuzzleController.mkPuzzle "easy" none 0 [])).2
      = some (PuzzleController.destroy sC9) ∧
    (PuzzleController.destroy sC9).timerRunning = false ∧
    ((PuzzleController.tick)^[7] (PuzzleController.destroy sC9)
        = PuzzleController.destroy sC9) :=
  ⟨rfl,
   (startPuzzle_active_prior_destroyed sC9 (PuzzleController.mkPuzzle "easy" none 0 []) rfl).1,
   (startPuzzle_active_prior_destroyed sC9 (PuzzleController.mkPuzzle "easy" none 0 []) rfl).2.2.1,
   (startPuzzle_active_prior_destroyed sC9 (PuzzleController.mkPuzzle "easy" none 0 []) rfl).2.2.2.1 7⟩

/-- Claim C7: completing a fully correct input round with rounds left
increments the round counter by one, appends exactly one (randomly
chosen) step to the target sequence and leaves the whole base puzzle
state — in particular `isActive` and the generic attempt counter —
untouched; completing the final round runs the base `complete`; a wrong
input restarts only the current round's show/input cycle, leaving the
round counter, the target sequence and the attempt counter unchanged
and clearing only the player's input buffer. -/
theorem sequence_round_spec (s : SeqState) (i : Nat) :
    (s.round < s.maxRounds →
      (RepairSequencePuzzle.handleSequenceComplete i s).round = s.round + 1 ∧
      (RepairSequencePuzzle.handleSequenceComplete i s).sequence
        = s.sequence ++ [s.actions.getD i ""] ∧
      (RepairSequencePuzzle.handleSequenceComplete i s).sequence.length
        = s.sequence.length + 1 ∧
      (RepairSequencePuzzle.handleSequenceComplete i s).toPuzzleState = s.toPuzzleState) ∧
    (s.maxRounds ≤ s.round →
      (RepairSequencePuzzle.handleSequenceComplete i s).isComplete = true ∧
      (RepairSequencePuzzle.handleSequenceComplete i s).isActive = false ∧
      (RepairSequencePuzzle.handleSequenceComplete i s).attempts = s.attempts ∧
      (RepairSequencePuzzle.handleSequenceComplete i s).round = s.round ∧
      (RepairSequencePuzzle.handleSequenceComplete i s).sequence = s.sequence) ∧
    ((RepairSequencePuzzle.startInputPhase (RepairSequencePuzzle.handleWrongInput s)).round
        = s.round ∧
     (RepairSequencePuzzle.startInputPhase (RepairSequencePuzzle.handleWrongInput s)).sequence
        = s.sequence ∧
     (RepairSequencePuzzle.startInputPhase (RepairSequencePuzzle.handleWrongInput s)).attempts
        = s.attempts ∧
     (RepairSequencePuzzle.startInputPhase (RepairSequencePuzzle.handleWrongInput s)).isActive
        = s.isActive ∧
     (RepairSequencePuzzle.startInputPhase (RepairSequencePuzzle.handleWrongInput s)).isFailed
        = s.isFailed ∧
     (RepairSequencePuzzle.startInputPhase (RepairSequencePuzzle.handleWrongInput s)).playerInput
        = ([] : List String)) := by
  refine ⟨?_, ?_, rfl, rfl, rfl, rfl, rfl, rfl⟩
  · intro h
    unfold RepairSequencePuzzle.handleSequenceComplete
    rw [if_pos h]
    exact ⟨rfl, rfl, by simp [RepairSequencePuzzle.extendSequence, RepairSequencePuzzle.showSequence], rfl⟩
  · intro h
    unfold RepairSequencePuzzle.handleSequenceComplete
    rw [if_neg (by simpa using h)]
    exact ⟨rfl, rfl, rfl, rfl, rfl⟩

/-- Witness state for Claim C7: a started sequence puzzle in its input
phase, round 1 of 3, with the default four-step target sequence
(end-to-end scenario B). -/
def sC7 : SeqState :=
  RepairSequencePuzzle.startInputPhase
    (RepairSequencePuzzle.showSequence
      { RepairSequencePuzzle.mkRepair "normal" none ["g", "w", "s", "o"] ["g", "w", "s", "o"]
          1000 5000 3 with
        toPuzzleState :=
          PuzzleController.start
            (RepairSequencePuzzle.mkRepair "normal" none ["g", "w", "s", "o"] ["g", "w", "s", "o"]
              1000 5000 3).toPuzzleState })

/-- Witness for Claim C7 at the concrete round-1 puzzle `sC7`: a correct
round takes the round counter to 2 and the sequence length to 5 while
the puzzle stays active, and a wrong input leaves round, sequence and
attempts alone. -/
theorem sequence_round_spec_witness :
    sC7.round < sC7.maxRounds ∧
    ((RepairSequencePuzzle.handleSequenceComplete 2 sC7).round = sC7.round + 1 ∧
     (RepairSequencePuzzle.handleSequenceComplete 2 sC7).sequence
        = sC7.sequence ++ [sC7.actions.getD 2 ""] ∧
     (RepairSequencePuzzle.handleSequenceComplete 2 sC7).sequence.length
        = sC7.sequence.length + 1 ∧
     (RepairSequencePuzzle.handleSequenceComplete 2 sC7).toPuzzleState = sC7.toPuzzleState) ∧
    (RepairSequencePuzzle.startInputPhase (RepairSequencePuzzle.handleWrongInput sC7)).round
        = sC7.round ∧
    (RepairSequencePuzzle.startInputPhase (RepairSequencePuzzle.handleWrongInput sC7)).attempts
        = sC7.attempts :=
  ⟨by decide,
   (sequence_round_spec sC7 2).1 (by decide),
   (sequence_round_spec sC7 2).2.2.1,
   (sequence_round_spec sC7 2).2.2.2.2.1⟩

/-- A resonance puzzle whose frequency dial sits at 0: the constructor
initialises the dial to the midpoint of its configured range, here
`(-1000 + 1000) / 2 = 0` (the same value is reachable by dragging any
dial whose range contains 0). -/
def detunedReso : ResoState :=
  ResonancePuzzle.mkResonance "normal" none [440] 20 (-1000) 1000

/-- Counterexample to Claim C8 as stated: with the frequency dial at 0
the claimed criterion `|dial - target| ≤ tolerance` is violated by
440 Hz, yet `lockNote` matches the note and even completes the puzzle,
because the code reads `this.dialValues.frequency || 440` and the falsy
dial value 0 silently becomes 440. -/
theorem lockNote_zero_dial_counterexample :
    detunedReso.frequencyDial = 0 ∧
    ¬(|detunedReso.frequencyDial - (440 : ℚ)| ≤ detunedReso.tolerance) ∧
    (ResonancePuzzle.lockNote detunedReso).matchedNotes = [0] ∧
    (ResonancePuzzle.lockNote detunedReso).currentNote = 1 ∧
    (ResonancePuzzle.lockNote detunedReso).isComplete = true := by
  refine ⟨?_, ?_, ?_, ?_, ?_⟩
  · norm_num [detunedReso, ResonancePuzzle.mkResonance]
  · norm_num [detunedReso, ResonancePuzzle.mkResonance]
  · norm_num [detunedReso, ResonancePuzzle.mkResonance, ResonancePuzzle.lockNote,
      ResonancePuzzle.currentFrequency, PuzzleController.complete,
      PuzzleController.calculateScore]
  · norm_num [detunedReso, ResonancePuzzle.mkResonance, ResonancePuzzle.lockNote,
      ResonancePuzzle.currentFrequency]
  · norm_num [detunedReso, ResonancePuzzle.mkResonance, ResonancePuzzle.lockNote,
      ResonancePuzzle.currentFrequency, PuzzleController.complete,
      PuzzleController.calculateScore]

/-- Claim C8 (amended): while a target note remains, `lockNote` appends
the current target-note index to `matchedNotes` and advances to the next
note if and only if the absolute difference between the effective
frequency — the frequency dial value, with 0 or an unset dial falling
back to 440 — and the current target note's frequency is at most the
configured tolerance; an out-of-tolerance lock leaves the state exactly
unchanged; and matching the final note completes the puzzle
autonomously, with the generic submit path's attempt counter untouched. -/
theorem lockNote_spec (s : ResoState) (h : s.currentNote < s.targetPattern.length) :
    (((ResonancePuzzle.lockNote s).matchedNotes = s.matchedNotes ++ [s.currentNote] ∧
      (ResonancePuzzle.lockNote s).currentNote = s.currentNote + 1)
      ↔ |s.targetPattern.get ⟨s.currentNote, h⟩ - ResonancePuzzle.currentFrequency s|
          ≤ s.tolerance) ∧
    (|s.targetPattern.get ⟨s.currentNote, h⟩ - ResonancePuzzle.currentFrequency s| ≤ s.tolerance →
      s.currentNote + 1 = s.targetPattern.length →
      (ResonancePuzzle.lockNote s).isComplete = true ∧
      (ResonancePuzzle.lockNote s).isActive = false ∧
      (ResonancePuzzle.lockNote s).attempts = s.attempts) ∧
    (¬(|s.targetPattern.get ⟨s.currentNote, h⟩ - ResonancePuzzle.currentFrequency s|
        ≤ s.tolerance) → ResonancePuzzle.lockNote s = s) := by
  by_cases hd : |s.targetPattern.get ⟨s.currentNote, h⟩ - ResonancePuzzle.currentFrequency s|
      ≤ s.tolerance
  · have hlock : ResonancePuzzle.lockNote s =
        (if s.targetPattern.length ≤ s.currentNote + 1 then
          { s with matchedNotes := s.matchedNotes ++ [s.currentNote],
                   currentNote := s.currentNote + 1,
                   toPuzzleState := PuzzleController.complete s.toPuzzleState }
         else { s with matchedNotes := s.matchedNotes ++ [s.currentNote],
                       currentNote := s.currentNote + 1 }) := by
      unfold ResonancePuzzle.lockNote
      rw [dif_pos h, if_pos hd]
    refine ⟨?_, ?_, fun hc => absurd hd hc⟩
    · rw [hlock]
      split <;> exact iff_of_true ⟨rfl, rfl⟩ hd
    · intro _ hlen
      rw [hlock, if_pos (le_of_eq hlen.symm)]
      exact ⟨rfl, rfl, rfl⟩
  · have hlock : ResonancePuzzle.lockNote s = s := by
      unfold ResonancePuzzle.lockNote
      rw [dif_pos h, if_neg hd]
    refine ⟨?_, fun hc => absurd hc hd, fun _ => hlock⟩
    rw [hlock]
    exact iff_of_false (by simp) hd

/-- A resonance puzzle with the frequency dial dragged exactly onto the
first 440 Hz target note. -/
def tunedReso : ResoState :=
  { ResonancePuzzle.mkResonance "normal" none [440, 523] 20 200 1000 with frequencyDial := 440 }

/-- Witness for Claim C8 (amended) at the concrete in-tune puzzle
`tunedReso`: locking appends note index 0 and advances to note 1. -/
theorem lockNote_spec_witness :
    (ResonancePuzzle.lockNote tunedReso).matchedNotes
        = tunedReso.matchedNotes ++ [tunedReso.currentNote] ∧
    (ResonancePuzzle.lockNote tunedReso).currentNote = tunedReso.currentNote + 1 :=
  (lockNote_spec tunedReso (by norm_num [tunedReso, ResonancePuzzle.mkResonance])).1.mpr
    (by norm_num [tunedReso, ResonancePuzzle.mkResonance, ResonancePuzzle.currentFrequency])

/-- Closed form of the score field produced by `calculateScore`, with
the time bonus folded into a single conditional summand. -/
theorem calculateScore_score (s : PuzzleState) :
    (PuzzleController.calculateScore s).score
      = max 0 ⌊((100 - ((s.attempts : ℚ) - 1) * 10 - (s.hintsUsed : ℚ) * 15) +
          (if 0 < s.timeLimit ∧ 0 < s.timeRemaining
           then ((⌊(s.timeRemaining : ℚ) / (s.timeLimit : ℚ) * 20⌋ : ℤ) : ℚ) else 0))
          * PuzzleController.difficultyModifier s.difficulty⌋ := by
  unfold PuzzleController.calculateScore
  split
  · rfl
  · rw [add_zero]

/-- The state reached by starting an expert 5000ms puzzle and submitting
a correct solution immediately: one attempt, no hints, full time left. -/
def sC1 : PuzzleState :=
  (PuzzleController.submit true
    (PuzzleController.start (PuzzleController.mkPuzzle "expert" (some 3) 5000 []))).2

/-- Counterexample to Claim C1 as stated: a completed expert puzzle with
one attempt, no hints and full time remaining scores
`floor((100 + 20) * 1.5) = 180`, which exceeds the claimed bound
`100 * 1.5 + 20 = 170` — the time bonus is added before the
difficulty multiplication, not after it. -/
theorem score_bound_counterexample :
    sC1.isComplete = true ∧
    sC1.attempts = 1 ∧
    sC1.hintsUsed = 0 ∧
    sC1.score = 180 ∧
    ¬((sC1.score : ℚ) ≤ 100 * PuzzleController.difficultyModifier "expert" + 20) := by
  have hs : sC1.score = 180 := by
    have hd : PuzzleController.difficultyModifier "expert" = 3/2 := rfl
    norm_num [sC1, PuzzleController.submit, PuzzleController.start,
      PuzzleController.mkPuzzle, PuzzleController.complete, PuzzleController.calculateScore,
      hd, PuzzleController.attemptsExhausted]
  refine ⟨rfl, rfl, rfl, hs, ?_⟩
  rw [hs]
  have hd : PuzzleController.difficultyModifier "expert" = 3/2 := rfl
  rw [hd]
  norm_num

/-- Claim C1 (amended): for every puzzle state whose remaining time does
not exceed its limit, the computed score satisfies
`0 ≤ score ≤ (100 + 10 + 20) × difficultyFactor` — the 20-point time
bonus (and the 10-point credit a zero-attempt completion receives) are
multiplied by the difficulty factor rather than added after it — and,
holding difficulty and time-remaining fixed, the score is monotonically
non-increasing in attempts-used and in hints-used. -/
theorem calculateScore_bounds_mono (s : PuzzleState) (a1 a2 h1 h2 : Nat)
    (htr : s.timeRemaining ≤ s.timeLimit) (ha : a1 ≤ a2) (hh : h1 ≤ h2) :
    0 ≤ (PuzzleController.calculateScore s).score ∧
    ((PuzzleController.calculateScore s).score : ℚ)
      ≤ 130 * PuzzleController.difficultyModifier s.difficulty ∧
    (PuzzleController.calculateScore { s with attempts := a2, hintsUsed := h2 }).score
      ≤ (PuzzleController.calculateScore { s with attempts := a1, hintsUsed := h1 }).score := by
  have hdpos : 0 < PuzzleController.difficultyModifier s.difficulty :=
    difficultyModifier_pos s.difficulty
  refine ⟨?_, ?_, ?_⟩
  · rw [calculateScore_score]
    exact le_max_left 0 _
  · rw [calculateScore_score]
    have hbn : (if 0 < s.timeLimit ∧ 0 < s.timeRemaining
           then ((⌊(s.timeRemaining : ℚ) / (s.timeLimit : ℚ) * 20⌋ : ℤ) : ℚ) else 0) ≤ 20 := by
      split
      · rename_i hc
        have htl : (0 : ℚ) < (s.timeLimit : ℚ) := by exact_mod_cast hc.1
        have hfrac : (s.timeRemaining : ℚ) / (s.timeLimit : ℚ) ≤ 1 := by
          rw [div_le_one htl]
          exact_mod_cast htr
        calc ((⌊(s.timeRemaining : ℚ) / (s.timeLimit : ℚ) * 20⌋ : ℤ) : ℚ)
            ≤ (s.timeRemaining : ℚ) / (s.timeLimit : ℚ) * 20 := Int.floor_le _
          _ ≤ 1 * 20 := by nlinarith
          _ = 20 := by norm_num
      · norm_num
    have hbase : (100 - ((s.attempts : ℚ) - 1) * 10 - (s.hintsUsed : ℚ) * 15) +
          (if 0 < s.timeLimit ∧ 0 < s.timeRemaining
           then ((⌊(s.timeRemaining : ℚ) / (s.timeLimit : ℚ) * 20⌋ : ℤ) : ℚ) else 0) ≤ 130 := by
      have h1 : (0 : ℚ) ≤ (s.attempts : ℚ) := Nat.cast_nonneg _
      have h2 : (0 : ℚ) ≤ (s.hintsUsed : ℚ) := Nat.cast_nonneg _
      linarith
    push_cast [Int.cast_max]
    refine max_le (by positivity) ?_
    calc ((⌊_ * PuzzleController.difficultyModifier s.difficulty⌋ : ℤ) : ℚ)
        ≤ _ * PuzzleController.difficultyModifier s.difficulty := Int.floor_le _
      _ ≤ 130 * PuzzleController.difficultyModifier s.difficulty := by nlinarith
  · rw [calculateScore_score, calculateScore_score]
    simp only
    apply max_le_max le_rfl
    apply Int.floor_le_floor
    apply mul_le_mul_of_nonneg_right _ hdpos.le
    have hc1 : ((a1 : ℚ)) ≤ (a2 : ℚ) := by exact_mod_cast ha
    have hc2 : ((h1 : ℚ)) ≤ (h2 : ℚ) := by exact_mod_cast hh
    gcongr ?_ + ?_
    · linarith
    · exact le_rfl

/-- Witness for Claim C1 (amended) at a concrete hard 5000ms puzzle:
the bound holds and using three attempts and two hints scores no more
than one attempt and no hints. -/
theorem calculateScore_bounds_mono_witness :
    0 ≤ (PuzzleController.calculateScore (PuzzleController.mkPuzzle "hard" none 5000 [])).score ∧
    ((PuzzleController.calculateScore (PuzzleController.mkPuzzle "hard" none 5000 [])).score : ℚ)
      ≤ 130 * PuzzleController.difficultyModifier "hard" ∧
    (PuzzleController.calculateScore
        { PuzzleController.mkPuzzle "hard" none 5000 [] with attempts := 3, hintsUsed := 2 }).score
      ≤ (PuzzleController.calculateScore
        { PuzzleController.mkPuzzle "hard" none 5000 [] with attempts := 0, hintsUsed := 0 }).score :=
  calculateScore_bounds_mono (PuzzleController.mkPuzzle "hard" none 5000 []) 0 3 0 2
    (by decide) (by decide) (by decide)
